import Mathlib

/-!
Verification development for a small library of neural-network layers
(embedding lookup, recurrent cell, dot-product attention variants and the
masked self-attention layers with their batch/incremental dual interface).

The tensors manipulated by the library are modelled as rank-1/2/3 nested
lists of real numbers.  A rank-2 tensor carries its column count
explicitly so that a tensor with zero rows still has a well-defined
trailing dimension (the incremental attention state starts as an empty
(0, dims) tensor).  Fallible tensor operations return values in
`Except PyErr`, where `PyErr` enumerates the Python exception kinds the
library can surface: the explicit `TypeError`/`ValueError` raises of the
source, plus the `IndexError`, `RuntimeError` and `AttributeError` that
the underlying runtime raises when an unchecked operation is handed
ill-shaped input.

Floating-point arithmetic is modelled by exact real arithmetic.  The
`-inf` value produced by `masked_fill_` is modelled by `Option ℝ` entries
(`none` standing for negative infinity), and `exp` of such an entry is 0,
exactly as IEEE evaluation of `softmax` after a `-inf` fill behaves.
-/

namespace NN

/-- Kinds of Python exceptions surfaced by the library.  `typeError` and
`valueError` carry the message of the explicit `raise`; the remaining
kinds are raised by the runtime from inside tensor primitives. -/
inductive PyErr where
  | typeError (msg : String)
  | valueError (msg : String)
  | indexError
  | runtimeError
  | attributeError
  deriving DecidableEq, Repr

/-- Tensors of rank 1, 2 or 3 (the only ranks produced by the call sites of the library
produce).  A rank-2 tensor records its column count `cols` so that an
empty tensor of shape (0, d) is representable; a rank-3 tensor records
the two trailing dimensions `d2`, `d3` likewise. -/
inductive Tensor (α : Type) where
  | t1 (data : List α)
  | t2 (cols : Nat) (rows : List (List α))
  | t3 (d2 d3 : Nat) (data : List (List (List α)))
  deriving Repr

/-- The shape of a tensor, as the list a `size()` call returns. -/
def Tensor.shape : Tensor α → List Nat
  | .t1 v => [v.length]
  | .t2 c r => [r.length, c]
  | .t3 a b d => [d.length, a, b]

/-- Number of axes (`ndim`). -/
def Tensor.ndim (t : Tensor α) : Nat := t.shape.length

/-- Well-formedness: every row of a rank-2 tensor has the declared column
count, and similarly for rank 3. -/
def Tensor.wf : Tensor α → Prop
  | .t1 _ => True
  | .t2 c r => ∀ row ∈ r, row.length = c
  | .t3 a b d => ∀ m ∈ d, m.length = a ∧ ∀ row ∈ m, row.length = b

/-- `t.size()[-k]`: negative indexing into the shape tuple.  Indexing past
the front of the tuple raises an `IndexError`, exactly as in Python. -/
def sizeNeg (t : Tensor α) (k : Nat) : Except PyErr Nat :=
  if k ≤ t.shape.length ∧ 1 ≤ k then
    .ok (t.shape.getD (t.shape.length - k) 0)
  else
    .error .indexError

/-- Elementwise map over a tensor. -/
def tmap (f : α → β) : Tensor α → Tensor β
  | .t1 v => .t1 (v.map f)
  | .t2 c r => .t2 c (r.map (fun row => row.map f))
  | .t3 a b d => .t3 a b (d.map (fun m => m.map (fun row => row.map f)))

/-- Elementwise addition (`+` on same-shape tensors; the library only adds
same-shape tensors, so the broadcasting cases of the runtime are not
modelled and fall to `runtimeError`). -/
def tadd : Tensor ℝ → Tensor ℝ → Except PyErr (Tensor ℝ)
  | .t1 a, .t1 b =>
    if a.length = b.length then .ok (.t1 (List.zipWith (· + ·) a b))
    else .error .runtimeError
  | .t2 c1 r1, .t2 c2 r2 =>
    if c1 = c2 ∧ r1.length = r2.length then
      .ok (.t2 c1 (List.zipWith (List.zipWith (· + ·)) r1 r2))
    else .error .runtimeError
  | _, _ => .error .runtimeError

/-- Dot product of two lists (zip-truncating, as the callers always pass
equal lengths). -/
def dotList (v w : List ℝ) : ℝ := (List.zipWith (· * ·) v w).sum

/-- Multiply a row vector with a matrix given as a list of rows with `c`
columns: entry `j` is the dot product of `v` with column `j`. -/
def vecMat (v : List ℝ) (rows : List (List ℝ)) (c : Nat) : List ℝ :=
  (List.range c).map (fun j => dotList v (rows.map (fun r => r.getD j 0)))

/-- A matrix applied to a vector, row by row: the specification-level
matrix-vector product (row `i` of the result is `dot (row i) v`). -/
def matVecL (rows : List (List ℝ)) (v : List ℝ) : List ℝ :=
  rows.map (fun r => dotList r v)

/-- `torch.matmul` on the rank combinations the library exercises:
vector @ matrix, matrix @ matrix, and matrix @ batched-column-stack
(the broadcasting case produced inside `bmv`).  Shape mismatches raise a
`RuntimeError`; rank combinations the library never produces are also
mapped to `runtimeError`. -/
def matmul : Tensor ℝ → Tensor ℝ → Except PyErr (Tensor ℝ)
  | .t1 v, .t2 c r =>
    if r.length = v.length then .ok (.t1 (vecMat v r c)) else .error .runtimeError
  | .t2 c1 r1, .t2 c2 r2 =>
    if r2.length = c1 then
      .ok (.t2 c2 (r1.map (fun row => vecMat row r2 c2)))
    else .error .runtimeError
  | .t2 c1 r1, .t3 a b d =>
    if a = c1 then
      .ok (.t3 r1.length b (d.map (fun m => r1.map (fun row => vecMat row m b))))
    else .error .runtimeError
  | _, _ => .error .runtimeError

/-- `x.transpose(-2, -1)`: swap the last two axes.  On a rank-1 tensor the
dimension arguments are out of range and an `IndexError` is raised. -/
def transposeLast2 : Tensor ℝ → Except PyErr (Tensor ℝ)
  | .t1 _ => .error .indexError
  | .t2 c r =>
    .ok (.t2 r.length ((List.range c).map (fun j => r.map (fun row => row.getD j 0))))
  | .t3 a b d =>
    .ok (.t3 b a (d.map (fun m =>
      (List.range b).map (fun j => m.map (fun row => row.getD j 0)))))

/-- `x.unsqueeze(-1)`: append a trailing axis of extent 1. -/
def unsqueezeLast : Tensor ℝ → Tensor ℝ
  | .t1 v => .t2 1 (v.map (fun a => [a]))
  | .t2 c r => .t3 c 1 (r.map (fun row => row.map (fun a => [a])))
  | .t3 a b d => .t3 a b d

/-- `x.squeeze(-1)`: drop the trailing axis when its extent is 1. -/
def squeezeLast : Tensor ℝ → Tensor ℝ
  | .t1 v => .t1 v
  | .t2 c r => if c = 1 then .t1 (r.map (fun row => row.getD 0 0)) else .t2 c r
  | .t3 a b d =>
    if b = 1 then .t2 a (d.map (fun m => m.map (fun row => row.getD 0 0)))
    else .t3 a b d

/-- `x.unsqueeze(0)`: prepend an axis of extent 1. -/
def unsqueeze0 : Tensor ℝ → Tensor ℝ
  | .t1 v => .t2 v.length [v]
  | .t2 c r => .t3 c r.length [r]
  | .t3 a b d => .t3 a b d

/-- `torch.cat([x, y], dim=0)`: the non-concatenated dimensions must
agree, otherwise the runtime raises a `RuntimeError`. -/
def catDim0 : Tensor ℝ → Tensor ℝ → Except PyErr (Tensor ℝ)
  | .t1 a, .t1 b => .ok (.t1 (a ++ b))
  | .t2 c1 r1, .t2 c2 r2 =>
    if c1 = c2 then .ok (.t2 c1 (r1 ++ r2)) else .error .runtimeError
  | _, _ => .error .runtimeError

/-- `bmv(w, x)` from the source: unsqueeze the trailing axis of the input,
matrix-multiply, squeeze the trailing axis back off. -/
def bmv (w x : Tensor ℝ) : Except PyErr (Tensor ℝ) := do
  let x1 := unsqueezeLast x
  let y ← matmul w x1
  pure (squeezeLast y)

/-- `masked_fill_(mask, -inf)` on the logits: a `none` entry stands for
the `-inf` fill value.  The in-place fill cannot expand the logits
tensor, so a higher-rank mask on rank-1 logits is a `RuntimeError`; a
rank-1 mask broadcasts across the rows of rank-2 logits. -/
def maskedFill : Tensor ℝ → Tensor Bool → Except PyErr (Tensor (Option ℝ))
  | .t1 v, .t1 m =>
    if m.length = v.length then
      .ok (.t1 (List.zipWith (fun x b => if b then none else some x) v m))
    else .error .runtimeError
  | .t2 c r, .t2 cm rm =>
    if cm = c ∧ rm.length = r.length then
      .ok (.t2 c (List.zipWith (List.zipWith (fun x b => if b then none else some x)) r rm))
    else .error .runtimeError
  | .t2 c r, .t1 m =>
    if m.length = c then
      .ok (.t2 c (r.map (fun row => List.zipWith (fun x b => if b then none else some x) row m)))
    else .error .runtimeError
  | _, _ => .error .runtimeError

/-- `exp` extended to the `-inf` representation: `exp(-inf) = 0`. -/
noncomputable def expO : Option ℝ → ℝ
  | none => 0
  | some x => Real.exp x

/-- One row of `torch.softmax` over entries that may be `-inf`. -/
noncomputable def softmaxRow (r : List (Option ℝ)) : List ℝ :=
  r.map (fun e => expO e / (r.map expO).sum)

/-- `torch.softmax(x, dim=-1)`: softmax along the last axis. -/
noncomputable def softmaxLast : Tensor (Option ℝ) → Tensor ℝ
  | .t1 v => .t1 (softmaxRow v)
  | .t2 c r => .t2 c (r.map softmaxRow)
  | .t3 a b d => .t3 a b (d.map (fun m => m.map softmaxRow))

/-- First index attaining the maximum of a list (the index
`torch.argmax` returns along a dimension). -/
noncomputable def argmaxAux (best : ℝ) (bestIdx cur : Nat) : List ℝ → Nat
  | [] => bestIdx
  | x :: xs => if best < x then argmaxAux x cur (cur + 1) xs else argmaxAux best bestIdx (cur + 1) xs

/-- First index of the maximum entry of a list. -/
noncomputable def argmaxIdx : List ℝ → Nat
  | [] => 0
  | x :: xs => argmaxAux x 0 1 xs

/-- `torch.argmax(x, dim=1)`: for a rank-2 tensor this picks the first
maximal column index of every row; on a rank-1 tensor dimension 1 is out
of range and an `IndexError` is raised. -/
noncomputable def argmaxDim1 : Tensor ℝ → Except PyErr (Tensor Nat)
  | .t1 _ => .error .indexError
  | .t2 _ r => .ok (.t1 (r.map argmaxIdx))
  | .t3 _ _ _ => .error .runtimeError

/-- `attention(query, keys, vals, mask, temp)` from the source: the entry
checks in source order (with the short-circuit evaluation Python gives the
`and`, and the `IndexError` a `size()[-2]` access raises on a rank-1
mask), then scaled dot-product scores, the optional `-inf` fill, the
division by `temp`, softmax over the key axis and the weighted sum of the
values. -/
noncomputable def attention (query keys vals : Tensor ℝ) (mask : Option (Tensor Bool))
    (temp : ℝ) : Except PyErr (Tensor ℝ) := do
  let ql ← sizeNeg query 1
  let kl ← sizeNeg keys 1
  if ql ≠ kl then throw (.typeError "The queries and keys should be the same size")
  let d := ql
  let kn ← sizeNeg keys 2
  let vn ← sizeNeg vals 2
  if kn ≠ vn then throw (.typeError "There must be the same number of keys and values")
  match mask with
  | none => pure ()
  | some m => do
    if 2 ≤ query.ndim then do
      let m2 ← sizeNeg m 2
      let q2 ← sizeNeg query 2
      if m2 ≠ q2 then throw (.typeError "Mask has wrong size")
    let m1 ← sizeNeg m 1
    if m1 ≠ kn then throw (.typeError "Mask has wrong size")
  let kT ← transposeLast2 keys
  let qk ← matmul query kT
  let logits := tmap (fun x => x / Real.sqrt d) qk
  let filled ← match mask with
    | none => pure (tmap some logits)
    | some m => maskedFill logits m
  let aweights := softmaxLast (tmap (Option.map (fun x => x / temp)) filled)
  let context ← matmul aweights vals
  pure context

/-- `hardAttention(query, keys, vals, mask, gumbel)` from the source: the
same entry checks and scores as `attention`, softmax at temperature 1,
then either the Gumbel-softmax draw (whose sampling is abstracted by the
`gumbelSample` argument, since it is randomized) or
`torch.argmax(aweights, dim=1).float()`, and finally `choices @ vals`. -/
noncomputable def hardAttention (gumbelSample : Tensor ℝ → Tensor ℝ)
    (query keys vals : Tensor ℝ) (mask : Option (Tensor Bool))
    (gumbel : Bool) : Except PyErr (Tensor ℝ) := do
  let ql ← sizeNeg query 1
  let kl ← sizeNeg keys 1
  if ql ≠ kl then throw (.typeError "The queries and keys should be the same size")
  let d := ql
  let kn ← sizeNeg keys 2
  let vn ← sizeNeg vals 2
  if kn ≠ vn then throw (.typeError "There must be the same number of keys and values")
  match mask with
  | none => pure ()
  | some m => do
    if 2 ≤ query.ndim then do
      let m2 ← sizeNeg m 2
      let q2 ← sizeNeg query 2
      if m2 ≠ q2 then throw (.typeError "Mask has wrong size")
    let m1 ← sizeNeg m 1
    if m1 ≠ kn then throw (.typeError "Mask has wrong size")
  let kT ← transposeLast2 keys
  let qk ← matmul query kT
  let logits := tmap (fun x => x / Real.sqrt d) qk
  let filled ← match mask with
    | none => pure (tmap some logits)
    | some m => maskedFill logits m
  let aweights := softmaxLast filled
  let choices ← if gumbel then pure (gumbelSample aweights)
    else do
      let idxs ← argmaxDim1 aweights
      pure (tmap (fun i : Nat => (i : ℝ)) idxs)
  let context ← matmul choices vals
  pure context

/-- The learned parameters of the `RNN` class: `h0`, `W_hi`, `W_hh`, `b`
and the declared size `dims`. -/
structure RNNParams where
  dims : Nat
  h0 : Tensor ℝ
  W_hi : Tensor ℝ
  W_hh : Tensor ℝ
  b : Tensor ℝ

/-- `RNN.start()`: the initial state is the learned parameter `h0`. -/
def rnnStart (p : RNNParams) : Tensor ℝ := p.h0

/-- `RNN.step(state, inp)` from the source: the two entry size checks,
then `state = tanh(bmv(W_hi, inp) + bmv(W_hh, state) + b)` and the pair
`(state, state + inp)`. -/
noncomputable def rnnStep (p : RNNParams) (state inp : Tensor ℝ) :
    Except PyErr (Tensor ℝ × Tensor ℝ) := do
  let sl ← sizeNeg state 1
  if sl ≠ p.dims then throw (.typeError "Previous hidden-state vector must have size dims")
  let il ← sizeNeg inp 1
  if il ≠ p.dims then throw (.typeError "Input vector must have size dims")
  let a ← bmv p.W_hi inp
  let b1 ← bmv p.W_hh state
  let s1 ← tadd a b1
  let s2 ← tadd s1 p.b
  let state1 := tmap Real.tanh s2
  let out ← tadd state1 inp
  pure (state1, out)

/-- The learned parameters of the `AttentionLayer` base class: the three
square projection matrices and the declared size `dims`. -/
structure AttnParams where
  dims : Nat
  W_Q : Tensor ℝ
  W_K : Tensor ℝ
  W_V : Tensor ℝ

/-- `MaskedSelfAttentionLayer.start()`: `torch.empty(0, dims)`, the empty
sequence of previous inputs. -/
def maskedSelfAttentionStart (p : AttnParams) : Tensor ℝ := .t2 p.dims []

/-- `MaskedSelfAttentionLayer.step(prev_inps, inp)` from the source: no
entry validation; concatenate the new input onto the stored inputs,
project, run unmasked attention of the new query over all inputs, add the
residual, and return the grown state with the output. -/
noncomputable def maskedSelfAttentionStep (p : AttnParams) (prev_inps inp : Tensor ℝ) :
    Except PyErr (Tensor ℝ × Tensor ℝ) := do
  let inputs ← catDim0 prev_inps (unsqueeze0 inp)
  let query ← bmv p.W_Q inp
  let keys ← bmv p.W_K inputs
  let values ← bmv p.W_V inputs
  let output ← attention query keys values none 1
  let output ← tadd output inp
  pure (inputs, output)

/-- The boolean tensor `torch.arange(n).unsqueeze(1) < torch.arange(n)`:
the (n, 1) column of indices compared, with broadcasting, against the
(n,) row of indices, so entry (i, j) is `i < j` — the strict
upper-triangular causal mask. -/
def causalMask (n : Nat) : Tensor Bool :=
  .t2 n ((List.range n).map (fun i => (List.range n).map (fun j => decide (i < j))))

/-- `MaskedSelfAttentionLayer.forward(inputs)` from the source: rank and
size checks, the three projections, the causal mask, masked attention at
the default temperature 1 and the residual. -/
noncomputable def maskedSelfAttentionForward (p : AttnParams) (inputs : Tensor ℝ) :
    Except PyErr (Tensor ℝ) := do
  if inputs.ndim < 2 then throw (.typeError "inputs must have at least two axes")
  let n ← sizeNeg inputs 2
  let last ← sizeNeg inputs 1
  if last ≠ p.dims then throw (.typeError "input vectors must have size dims")
  let queries ← bmv p.W_Q inputs
  let keys ← bmv p.W_K inputs
  let values ← bmv p.W_V inputs
  let mask := causalMask n
  let outputs ← attention queries keys values (some mask) 1
  let outputs ← tadd outputs inputs
  pure outputs

/-- `MaskedSelfAttentionLayerTemp.start()`: identical to the untempered
untempered `start`. -/
def maskedSelfAttentionTempStart (p : AttnParams) : Tensor ℝ := .t2 p.dims []

/-- `MaskedSelfAttentionLayerTemp.step(prev_inps, inp)` from the source:
its body is line-for-line the body of `MaskedSelfAttentionLayer.step`
(no temperature appears in the incremental path). -/
noncomputable def maskedSelfAttentionTempStep (p : AttnParams) (prev_inps inp : Tensor ℝ) :
    Except PyErr (Tensor ℝ × Tensor ℝ) := do
  let inputs ← catDim0 prev_inps (unsqueeze0 inp)
  let query ← bmv p.W_Q inp
  let keys ← bmv p.W_K inputs
  let values ← bmv p.W_V inputs
  let output ← attention query keys values none 1
  let output ← tadd output inp
  pure (inputs, output)

/-- `MaskedSelfAttentionLayerTemp.forward(inputs)` from the source: the
same as the untempered forward except that attention is called with
`temp = 1/(n**3)`. -/
noncomputable def maskedSelfAttentionTempForward (p : AttnParams) (inputs : Tensor ℝ) :
    Except PyErr (Tensor ℝ) := do
  if inputs.ndim < 2 then throw (.typeError "inputs must have at least two axes")
  let n ← sizeNeg inputs 2
  let last ← sizeNeg inputs 1
  if last ≠ p.dims then throw (.typeError "input vectors must have size dims")
  let queries ← bmv p.W_Q inputs
  let keys ← bmv p.W_K inputs
  let values ← bmv p.W_V inputs
  let temp : ℝ := 1 / ((n : ℝ) ^ 3)
  let mask := causalMask n
  let outputs ← attention queries keys values (some mask) temp
  let outputs ← tadd outputs inputs
  pure outputs

/-- Tensor dtypes relevant to the `Embedding.forward` dtype check. -/
inductive Dtype where
  | int32 | int64 | float32 | float64 | boolT
  deriving DecidableEq, Repr

/-- The Python values `Embedding.forward` can receive: a Python `int`, a
Python `float` (which has no `.dtype` attribute), or a tensor with a
dtype.  The element list of a tensor is only semantically meaningful for
the integral dtypes, the only ones on which `forward` ever reads it. -/
inductive EmbInput where
  | pyInt (i : ℤ)
  | pyFloat (x : ℝ)
  | tensor (dt : Dtype) (ids : List ℤ)

/-- Python / torch indexing of a table with `len` rows by a possibly
negative integer index: negative indices count from the end, and an index
out of `[-len, len)` raises an `IndexError`. -/
def pyIndex (len : Nat) (i : ℤ) : Except PyErr Nat :=
  if 0 ≤ i ∧ i < (len : ℤ) then .ok i.toNat
  else if -(len : ℤ) ≤ i ∧ i < 0 then .ok ((len : ℤ) + i).toNat
  else .error .indexError

/-- `torch.nn.functional.normalize(v, dim=-1)`: divide by the Euclidean
norm clamped below by the default eps `1e-12`. -/
noncomputable def l2normalize (v : List ℝ) : List ℝ :=
  v.map (fun x => x / max (Real.sqrt ((v.map (fun y => y * y)).sum)) 1e-12)

/-- `Embedding.forward(inp)` from the source.  The check
`isinstance(inp, int) or inp.dtype in [torch.int32, torch.int64]` is
evaluated with short-circuiting as in Python: a Python `int` passes without
its `.dtype` being read, a tensor has its dtype compared against the two
integral dtypes (raising the `TypeError` on a mismatch), and a Python
`float` raises an `AttributeError` from the `.dtype` access itself.  The
selected rows of the table are then renormalized to unit norm. -/
noncomputable def embeddingForward (W : List (List ℝ)) (inp : EmbInput) :
    Except PyErr (Tensor ℝ) := do
  match inp with
  | .pyInt i => do
    let j ← pyIndex W.length i
    pure (.t1 (l2normalize (W.getD j [])))
  | .pyFloat _ => throw .attributeError
  | .tensor dt ids =>
    if dt = .int32 ∨ dt = .int64 then do
      let rows ← ids.mapM (fun i => do
        let j ← pyIndex W.length i
        pure (l2normalize (W.getD j [])))
      pure (.t2 ((W.headD []).length) rows)
    else throw (.typeError "input should be an integer or tensor of integers")

/-! ### List-level helper lemmas -/

/-- Reading a list back off by index gives the list. -/
theorem list_eq_range_getD (l : List α) (d : α) :
    (List.range l.length).map (fun j => l.getD j d) = l := by
  induction l with
  | nil => simp
  | cons x xs ih =>
    simp only [List.length_cons, List.range_succ_eq_map, List.map_cons, List.map_map]
    simp only [List.getD_cons_zero, List.getD_cons_succ, Function.comp]
    exact congrArg (x :: ·) ih

/-- Zipping two maps of the same list pointwise. -/
theorem zipWith_map_same (h : β → γ → δ) (f : α → β) (g : α → γ) (l : List α) :
    List.zipWith h (l.map f) (l.map g) = l.map (fun x => h (f x) (g x)) := by
  induction l with
  | nil => rfl
  | cons x xs ih => simp [ih]

/-- Zipping a map of a list with the list itself pointwise. -/
theorem zipWith_map_left_same (h : β → α → δ) (f : α → β) (l : List α) :
    List.zipWith h (l.map f) l = l.map (fun x => h (f x) x) := by
  have := zipWith_map_same h f id l
  simpa using this

/-- A zip with an all-false row of the right length performs no fill. -/
theorem zipWith_fill_replicate_false (l : List ℝ) (n : Nat) (h : l.length = n) :
    List.zipWith (fun x b => if b then none else some x) l (List.replicate n false)
      = l.map some := by
  induction l generalizing n with
  | nil => simp
  | cons x xs ih =>
    cases n with
    | zero => simp at h
    | succ m =>
      simp only [List.replicate_succ, List.zipWith_cons_cons, List.map_cons, if_neg Bool.false_ne_true]
      exact congrArg _ (ih m (by simpa using h))

/-- Summing a function over `range n` when it vanishes past `i` equals the
sum over `range (i+1)`. -/
theorem range_sum_zero_tail (f : Nat → ℝ) (i n : Nat) (h : i < n)
    (hz : ∀ j, i < j → f j = 0) :
    ((List.range n).map f).sum = ((List.range (i + 1)).map f).sum := by
  obtain ⟨m, rfl⟩ : ∃ m, n = (i + 1) + m := ⟨n - (i + 1), by omega⟩
  induction m with
  | zero => rfl
  | succ k ih =>
    have : (i + 1) + (k + 1) = ((i + 1) + k) + 1 := by omega
    rw [this, List.range_succ, List.map_append, List.sum_append]
    simp only [List.map_cons, List.map_nil, List.sum_cons, List.sum_nil]
    rw [hz ((i + 1) + k) (by omega)]
    simpa using ih (by omega)

/-- The dot product of two maps over the same index range, as a sum. -/
theorem dotList_range (f g : Nat → ℝ) (n : Nat) :
    dotList ((List.range n).map f) ((List.range n).map g)
      = ((List.range n).map (fun j => f j * g j)).sum := by
  unfold dotList
  rw [zipWith_map_same]

/-! ### Evaluation lemmas for `bmv` -/

/-- A row times the column stack of a vector is the singleton dot product. -/
theorem vecMat_colstack (row v : List ℝ) :
    vecMat row (v.map (fun a => [a])) 1 = [dotList row v] := by
  unfold vecMat
  rw [show List.range 1 = [0] from rfl]
  simp [List.map_map, Function.comp_def, List.getElem?_cons_zero, Option.getD_some]

/-- `bmv` of a weight matrix with a single vector of matching size is the
row-by-row dot product. -/
theorem bmv_t1 (c : Nat) (W : List (List ℝ)) (v : List ℝ) (h : v.length = c) :
    bmv (.t2 c W) (.t1 v) = .ok (.t1 (matVecL W v)) := by
  simp [bmv, unsqueezeLast, matmul, squeezeLast, h, bind, Except.bind, pure,
    Except.pure, matVecL, vecMat_colstack, List.map_map, Function.comp]

/-- `bmv` of a weight matrix with a batch of vectors (declared width
matching the width of the weight) maps the row-by-row dot product over the
batch. -/
theorem bmv_t2 (c : Nat) (W X : List (List ℝ)) :
    bmv (.t2 c W) (.t2 c X) = .ok (.t2 W.length (X.map (matVecL W))) := by
  simp [bmv, unsqueezeLast, matmul, squeezeLast, bind, Except.bind, pure,
    Except.pure, matVecL, vecMat_colstack, List.map_map, Function.comp]

/-! ### Evaluation lemmas for `attention` -/

/-- Multiplying a row vector against the explicit transpose of a
rectangular matrix recovers the row-by-row dot products. -/
theorem vecMat_transpose (d : Nat) (q : List ℝ) (K : List (List ℝ))
    (hK : ∀ r ∈ K, r.length = d) :
    vecMat q ((List.range d).map (fun j => K.map (fun row => row.getD j 0))) K.length
      = K.map (fun k => dotList q k) := by
  unfold vecMat
  conv_rhs => rw [← list_eq_range_getD K [], List.map_map]
  refine List.map_congr_left (fun jj hjj => ?_)
  rw [List.mem_range] at hjj
  simp only [Function.comp]
  congr 1
  rw [List.map_map]
  have h1 : ((fun r : List ℝ => r.getD jj 0) ∘ fun j => K.map (fun row => row.getD j 0))
      = fun j => (K.getD jj []).getD j 0 := by
    funext j
    simp [List.getD_eq_getElem?_getD, List.getElem?_map, List.getElem?_eq_getElem hjj]
  rw [h1]
  have hlen : (K.getD jj []).length = d := by
    rw [List.getD_eq_getElem?_getD, List.getElem?_eq_getElem hjj]
    exact hK _ (List.getElem_mem hjj)
  rw [← hlen, list_eq_range_getD]

/-- One attention output row: query row `q` is scored against keys `K`
(scaled by `sqrt d`), positions flagged in `mrow` are sent to `-inf`, the
scores are divided by `temp`, softmaxed, and the weights combine the
rows of `V` (of declared width `dv`). -/
noncomputable def attnRowCore (d dv : Nat) (temp : ℝ) (q : List ℝ) (K V : List (List ℝ))
    (mrow : List Bool) : List ℝ :=
  vecMat (softmaxRow ((List.zipWith (fun l b => if b then none else some l)
    ((K.map (fun k => dotList q k)).map (fun l => l / Real.sqrt d)) mrow).map
      (Option.map (fun x => x / temp)))) V dv

/-- Two zips of the same lists with pointwise-equal functions agree. -/
theorem zipWith_congr_fun (f g : α → β → γ) (l : List α) (l2 : List β)
    (h : ∀ a b, f a b = g a b) : List.zipWith f l l2 = List.zipWith g l l2 := by
  have hfg : f = g := funext fun a => funext (h a)
  rw [hfg]

/-- Evaluation of `attention` on a batch of queries with a rank-2 mask:
all checks pass and the result combines each query row with its mask
row. -/
theorem attention_t2_masked_eval (d dv : Nat) (Q K V : List (List ℝ))
    (M : List (List Bool)) (temp : ℝ)
    (hK : ∀ r ∈ K, r.length = d) (hKV : K.length = V.length)
    (hM : M.length = Q.length) :
    attention (.t2 d Q) (.t2 d K) (.t2 dv V) (some (.t2 K.length M)) temp
      = .ok (.t2 dv (List.zipWith (fun q m => attnRowCore d dv temp q K V m) Q M)) := by
  have hrows : Q.map (fun row =>
      vecMat row ((List.range d).map (fun j => K.map (fun r => r.getD j 0))) K.length)
      = Q.map (fun q => K.map (fun k => dotList q k)) :=
    List.map_congr_left (fun q _ => vecMat_transpose d q K hK)
  simp [attention, sizeNeg, Tensor.shape, Tensor.ndim, bind, Except.bind, pure,
    Except.pure, throw, throwThe, MonadExceptOf.throw, transposeLast2, matmul,
    tmap, maskedFill, softmaxLast, hKV, hM, hrows, List.map_map]
  rw [List.zipWith_map_left, List.map_zipWith]
  refine zipWith_congr_fun _ _ _ _ (fun q m => ?_)
  simp only [Function.comp]
  unfold attnRowCore
  simp only [← List.getD_eq_getElem?_getD]
  rw [← hKV, vecMat_transpose d q K hK]

/-- `softmaxRow` preserves length. -/
theorem softmaxRow_length (r : List (Option ℝ)) : (softmaxRow r).length = r.length := by
  simp [softmaxRow]

/-- Evaluation of `attention` on a single query vector without a mask:
all checks pass and the result is one softmax-weighted combination of the
value rows (no position is masked, so the mask row of the closed form is
all-false). -/
theorem attention_t1_none_eval (d dv : Nat) (q : List ℝ) (K V : List (List ℝ)) (temp : ℝ)
    (hq : q.length = d) (hK : ∀ r ∈ K, r.length = d) (hKV : K.length = V.length) :
    attention (.t1 q) (.t2 d K) (.t2 dv V) none temp
      = .ok (.t1 (attnRowCore d dv temp q K V (List.replicate K.length false))) := by
  unfold attnRowCore
  rw [zipWith_fill_replicate_false _ K.length (by simp)]
  simp [attention, sizeNeg, Tensor.shape, Tensor.ndim, bind, Except.bind, pure,
    Except.pure, throw, throwThe, MonadExceptOf.throw, transposeLast2, matmul,
    tmap, softmaxLast, hq, hKV, List.map_map, softmaxRow_length]
  simp only [← List.getD_eq_getElem?_getD]
  rw [← hKV, vecMat_transpose d q K hK]
  rw [if_pos (by simp)]
  simp [Function.comp_def]

/-- Evaluation of `attention` on a batch of queries without a mask. -/
theorem attention_t2_none_eval (d dv : Nat) (Q K V : List (List ℝ)) (temp : ℝ)
    (hK : ∀ r ∈ K, r.length = d) (hKV : K.length = V.length) :
    attention (.t2 d Q) (.t2 d K) (.t2 dv V) none temp
      = .ok (.t2 dv (Q.map (fun q =>
          attnRowCore d dv temp q K V (List.replicate K.length false)))) := by
  simp [attention, sizeNeg, Tensor.shape, Tensor.ndim, bind, Except.bind, pure,
    Except.pure, throw, throwThe, MonadExceptOf.throw, transposeLast2, matmul,
    tmap, softmaxLast, hKV, List.map_map, softmaxRow_length]
  intro q _
  unfold attnRowCore
  rw [← hKV, zipWith_fill_replicate_false _ K.length (by simp)]
  simp only [Function.comp, List.map_map]
  simp only [← List.getD_eq_getElem?_getD]
  rw [vecMat_transpose d q K hK]
  simp [List.map_map, Function.comp_def]

/-- `matVecL` produces one entry per weight row. -/
theorem matVecL_length (W : List (List ℝ)) (v : List ℝ) :
    (matVecL W v).length = W.length := by
  simp [matVecL]

/-! ### C7: bmv contract -/

/-- Claim C7: for a weight matrix `W` of shape (m, n), `bmv(W, x)` on a
single vector of size n returns the size-m vector of row-by-row dot
products of `W` with `x`, and on a batch of shape (b, n) returns the
(b, m) result of applying that map to every batch row. -/
theorem C7_bmv_contract (m n : Nat) (W : List (List ℝ)) (hW : W.length = m)
    (hWr : ∀ r ∈ W, r.length = n) :
    (∀ x : List ℝ, x.length = n →
      bmv (.t2 n W) (.t1 x) = .ok (.t1 (W.map (fun r => dotList r x))))
    ∧ (∀ X : List (List ℝ), (∀ r ∈ X, r.length = n) →
      bmv (.t2 n W) (.t2 n X)
        = .ok (.t2 m (X.map (fun xr => W.map (fun r => dotList r xr))))) := by
  constructor
  · intro x hx
    rw [bmv_t1 n W x hx]
    rfl
  · intro X _
    rw [bmv_t2 n W X, hW]
    rfl

/-- Witness for C7 at a concrete 2×2 weight matrix, a concrete vector and
a concrete two-row batch. -/
theorem C7_bmv_contract_witness :
    bmv (.t2 2 [[1, 2], [3, 4]]) (.t1 [5, 6])
      = .ok (.t1 ([[(1 : ℝ), 2], [3, 4]].map (fun r => dotList r [5, 6])))
    ∧ bmv (.t2 2 [[1, 2], [3, 4]]) (.t2 2 [[5, 6], [7, 8]])
      = .ok (.t2 2 ([[(5 : ℝ), 6], [7, 8]].map (fun xr =>
          [[(1 : ℝ), 2], [3, 4]].map (fun r => dotList r xr)))) := by
  have h := C7_bmv_contract 2 2 [[1, 2], [3, 4]] rfl (by simp)
  exact ⟨h.1 [5, 6] rfl, h.2 [[5, 6], [7, 8]] (by simp)⟩

/-! ### C6: RNN.step -/

/-- Claim C6: for a state vector `s` and an input vector `x` both of size
`dims`, `RNN.step(s, x)` returns the pair (s1, s1 + x) where
`s1 = tanh(W_hi·x + W_hh·s + b)`: the emitted output is the new state
plus the input, not the bare activation. -/
theorem C6_rnn_step (dims : Nat) (h0 : Tensor ℝ) (Whi Whh : List (List ℝ))
    (bl s x : List ℝ)
    (hWhi : Whi.length = dims) (hWhh : Whh.length = dims) (hb : bl.length = dims)
    (hs : s.length = dims) (hx : x.length = dims) :
    rnnStep ⟨dims, h0, .t2 dims Whi, .t2 dims Whh, .t1 bl⟩ (.t1 s) (.t1 x)
      = .ok (.t1 ((List.zipWith (· + ·)
              (List.zipWith (· + ·) (matVecL Whi x) (matVecL Whh s)) bl).map Real.tanh),
            .t1 (List.zipWith (· + ·)
              ((List.zipWith (· + ·)
                (List.zipWith (· + ·) (matVecL Whi x) (matVecL Whh s)) bl).map Real.tanh)
              x)) := by
  unfold rnnStep
  simp only [sizeNeg, Tensor.shape, Tensor.ndim]
  rw [bmv_t1 dims Whi x hx, bmv_t1 dims Whh s hs]
  simp [bind, Except.bind, pure, Except.pure, throw, throwThe, MonadExceptOf.throw,
    tadd, tmap, hs, hx, matVecL_length, hWhi, hWhh, hb]

/-- Witness for C6 at `dims = 1` with concrete parameters, state and
input. -/
theorem C6_rnn_step_witness :
    rnnStep ⟨1, .t1 [0], .t2 1 [[2]], .t2 1 [[3]], .t1 [5]⟩ (.t1 [7]) (.t1 [11])
      = .ok (.t1 ((List.zipWith (· + ·)
              (List.zipWith (· + ·) (matVecL [[2]] [11]) (matVecL [[3]] [7])) [5]).map Real.tanh),
            .t1 (List.zipWith (· + ·)
              ((List.zipWith (· + ·)
                (List.zipWith (· + ·) (matVecL [[2]] [11]) (matVecL [[3]] [7])) [5]).map Real.tanh)
              [11])) :=
  C6_rnn_step 1 (.t1 [0]) [[2]] [[3]] [5] [7] [11] rfl rfl rfl rfl rfl

/-- Evaluation of `attention` on a single query vector with a rank-1 mask
of matching length. -/
theorem attention_t1_masked_eval (d dv : Nat) (q : List ℝ) (K V : List (List ℝ))
    (mrow : List Bool) (temp : ℝ)
    (hq : q.length = d) (hK : ∀ r ∈ K, r.length = d) (hKV : K.length = V.length)
    (hm : mrow.length = K.length) :
    attention (.t1 q) (.t2 d K) (.t2 dv V) (some (.t1 mrow)) temp
      = .ok (.t1 (attnRowCore d dv temp q K V mrow)) := by
  unfold attnRowCore
  simp [attention, sizeNeg, Tensor.shape, Tensor.ndim, bind, Except.bind, pure,
    Except.pure, throw, throwThe, MonadExceptOf.throw, transposeLast2, matmul,
    tmap, maskedFill, softmaxLast, hq, hKV, hm, List.map_map, softmaxRow_length,
    List.length_zipWith]
  simp only [← List.getD_eq_getElem?_getD]
  rw [← hKV, vecMat_transpose d q K hK]
  simp [tmap, softmaxLast, matmul, softmaxRow_length, List.length_zipWith, hm,
    hKV, List.map_map, Function.comp_def]

/-- Zipping a list against itself pointwise. -/
theorem zipWith_self (h : α → α → γ) (l : List α) :
    List.zipWith h l l = l.map (fun x => h x x) := by
  induction l with
  | nil => rfl
  | cons x xs ih => simp [ih]

/-! ### C9: the tempered step equals the untempered step -/

/-- Claim C9: for every state and input, `MaskedSelfAttentionLayerTemp.step`
computes exactly the same function as `MaskedSelfAttentionLayer.step` with
the same parameters (the 1/n³ temperature appears in batch-mode `forward`
only). -/
theorem C9_temp_step_eq (p : AttnParams) (prev_inps inp : Tensor ℝ) :
    maskedSelfAttentionTempStep p prev_inps inp
      = maskedSelfAttentionStep p prev_inps inp := rfl

/-! ### C8: all-false mask equals no mask -/

/-- Claim C8: `attention` called with an all-false mask of the matching
shape returns exactly the same result as `attention` with no mask, both
for a batch of queries with a rank-2 mask and for a single query vector
with a rank-1 mask. -/
theorem C8_allfalse_mask (d dv : Nat) (Q K V : List (List ℝ)) (temp : ℝ)
    (hK : ∀ r ∈ K, r.length = d) (hKV : K.length = V.length) :
    (attention (.t2 d Q) (.t2 d K) (.t2 dv V)
        (some (.t2 K.length (Q.map (fun _ => List.replicate K.length false)))) temp
      = attention (.t2 d Q) (.t2 d K) (.t2 dv V) none temp)
    ∧ ∀ q : List ℝ, q.length = d →
      attention (.t1 q) (.t2 d K) (.t2 dv V)
          (some (.t1 (List.replicate K.length false))) temp
        = attention (.t1 q) (.t2 d K) (.t2 dv V) none temp := by
  constructor
  · rw [attention_t2_masked_eval d dv Q K V _ temp hK hKV (by simp),
      attention_t2_none_eval d dv Q K V temp hK hKV]
    rw [List.zipWith_map_right, zipWith_self]
  · intro q hq
    rw [attention_t1_masked_eval d dv q K V _ temp hq hK hKV (by simp),
      attention_t1_none_eval d dv q K V temp hq hK hKV]

/-- Witness for C8 at concrete queries, keys, values and temperature. -/
theorem C8_allfalse_mask_witness :
    (attention (.t2 1 [[2], [3]]) (.t2 1 [[1], [5]]) (.t2 1 [[4], [6]])
        (some (.t2 2 [[false, false], [false, false]])) 7
      = attention (.t2 1 [[2], [3]]) (.t2 1 [[1], [5]]) (.t2 1 [[4], [6]]) none 7)
    ∧ attention (.t1 [2]) (.t2 1 [[1], [5]]) (.t2 1 [[4], [6]])
        (some (.t1 [false, false])) 7
      = attention (.t1 [2]) (.t2 1 [[1], [5]]) (.t2 1 [[4], [6]]) none 7 := by
  have h := C8_allfalse_mask 1 1 [[2], [3]] [[1], [5]] [[4], [6]] 7 (by simp) rfl
  exact ⟨h.1, h.2 [2] rfl⟩

/-! ### C3: mask shape validation -/

/-- Counterexample for C3 as stated: a rank-1 (too few axes) mask passed
with a batched query makes the `mask.size()[-2]` access raise an
`IndexError`, not the `TypeError` the claim promises. -/
theorem C3_counterexample :
    attention (.t2 1 [[1], [1]]) (.t2 1 [[1], [0]]) (.t2 1 [[5], [6]])
        (some (.t1 [false, false])) 1 = .error .indexError
    ∧ ∀ msg, attention (.t2 1 [[1], [1]]) (.t2 1 [[1], [0]]) (.t2 1 [[5], [6]])
        (some (.t1 [false, false])) 1 ≠ .error (.typeError msg) := by
  constructor
  · rfl
  · intro msg h
    rw [show attention (.t2 1 [[1], [1]]) (.t2 1 [[1], [0]]) (.t2 1 [[5], [6]])
        (some (.t1 [false, false])) 1 = .error .indexError from rfl] at h
    exact absurd (Except.error.inj h) (by simp)

/-- Claim C3, amended: with the earlier query/key and key/value checks
satisfied, a rank-2 mask whose trailing dimensions differ from
(query-count, key-count) raises a `TypeError`, and with a single-vector
query a mask whose last dimension differs from the key count raises a
`TypeError`; but a rank-1 mask together with a batched query instead
raises an `IndexError` from the `size()[-2]` access. -/
theorem C3_amended (d dv : Nat) (Q K V : List (List ℝ)) (temp : ℝ)
    (hKV : K.length = V.length) :
    (∀ (c : Nat) (M : List (List Bool)), (M.length, c) ≠ (Q.length, K.length) →
      attention (.t2 d Q) (.t2 d K) (.t2 dv V) (some (.t2 c M)) temp
        = .error (.typeError "Mask has wrong size"))
    ∧ (∀ mrow : List Bool,
      attention (.t2 d Q) (.t2 d K) (.t2 dv V) (some (.t1 mrow)) temp
        = .error .indexError)
    ∧ (∀ (q : List ℝ) (mrow : List Bool), q.length = d → mrow.length ≠ K.length →
      attention (.t1 q) (.t2 d K) (.t2 dv V) (some (.t1 mrow)) temp
        = .error (.typeError "Mask has wrong size")) := by
  refine ⟨fun c M hne => ?_, fun mrow => ?_, fun q mrow hq hm => ?_⟩
  · by_cases hp : M.length = Q.length
    · have hc : c ≠ K.length := fun hc => hne (by rw [hp, hc])
      have hc2 : c ≠ V.length := by rw [← hKV]; exact hc
      simp [attention, sizeNeg, Tensor.shape, Tensor.ndim, bind, Except.bind, pure,
        Except.pure, throw, throwThe, MonadExceptOf.throw, hKV, hp, hc, hc2]
    · simp [attention, sizeNeg, Tensor.shape, Tensor.ndim, bind, Except.bind, pure,
        Except.pure, throw, throwThe, MonadExceptOf.throw, hKV, hp]
  · simp [attention, sizeNeg, Tensor.shape, Tensor.ndim, bind, Except.bind, pure,
      Except.pure, throw, throwThe, MonadExceptOf.throw, hKV]
  · have hm2 : mrow.length ≠ V.length := by rw [← hKV]; exact hm
    simp [attention, sizeNeg, Tensor.shape, Tensor.ndim, bind, Except.bind, pure,
      Except.pure, throw, throwThe, MonadExceptOf.throw, hKV, hq, hm, hm2]

/-- Witness for the amended C3 at concrete tensors: a (1, 1) mask against
2 queries and 2 keys, a rank-1 mask against batched queries, and a
length-3 rank-1 mask against a single query with 2 keys. -/
theorem C3_amended_witness :
    attention (.t2 1 [[1], [1]]) (.t2 1 [[1], [0]]) (.t2 1 [[5], [6]])
        (some (.t2 1 [[true]])) 1 = .error (.typeError "Mask has wrong size")
    ∧ attention (.t2 1 [[1], [1]]) (.t2 1 [[1], [0]]) (.t2 1 [[5], [6]])
        (some (.t1 [false])) 1 = .error .indexError
    ∧ attention (.t1 [1]) (.t2 1 [[1], [0]]) (.t2 1 [[5], [6]])
        (some (.t1 [true, true, true])) 1 = .error (.typeError "Mask has wrong size") := by
  have h := C3_amended 1 1 [[1], [1]] [[1], [0]] [[5], [6]] 1 rfl
  exact ⟨h.1 1 [[true]] (by decide), h.2.1 [false], h.2.2 [1] [true, true, true] rfl (by decide)⟩

/-! ### C4: entry validation of public calls -/

/-- Counterexample for C4 as stated: `MaskedSelfAttentionLayer.step`
performs no entry validation, so an input vector of the wrong size
reaches the tensor concatenation and surfaces as a `RuntimeError`, not as
a descriptive `TypeError` raised by an entry check. -/
theorem C4_counterexample :
    maskedSelfAttentionStep ⟨2, .t2 2 [[1, 0], [0, 1]], .t2 2 [[1, 0], [0, 1]], .t2 2 [[1, 0], [0, 1]]⟩
        (maskedSelfAttentionStart ⟨2, .t2 2 [[1, 0], [0, 1]], .t2 2 [[1, 0], [0, 1]], .t2 2 [[1, 0], [0, 1]]⟩)
        (.t1 [0]) = .error .runtimeError
    ∧ ∀ msg, maskedSelfAttentionStep ⟨2, .t2 2 [[1, 0], [0, 1]], .t2 2 [[1, 0], [0, 1]], .t2 2 [[1, 0], [0, 1]]⟩
        (maskedSelfAttentionStart ⟨2, .t2 2 [[1, 0], [0, 1]], .t2 2 [[1, 0], [0, 1]], .t2 2 [[1, 0], [0, 1]]⟩)
        (.t1 [0]) ≠ .error (.typeError msg) := by
  constructor
  · rfl
  · intro msg h
    rw [show maskedSelfAttentionStep ⟨2, .t2 2 [[1, 0], [0, 1]], .t2 2 [[1, 0], [0, 1]], .t2 2 [[1, 0], [0, 1]]⟩
        (maskedSelfAttentionStart ⟨2, .t2 2 [[1, 0], [0, 1]], .t2 2 [[1, 0], [0, 1]], .t2 2 [[1, 0], [0, 1]]⟩)
        (.t1 [0]) = .error .runtimeError from rfl] at h
    exact absurd (Except.error.inj h) (by simp)

/-- Claim C4, amended: `RNN.step` does check its shape preconditions on
entry and fails fast with a descriptive type error, but the `step`
methods of the masked self-attention layers perform no entry validation:
an ill-sized input vector there surfaces as a `RuntimeError` from the
tensor concatenation instead. -/
theorem C4_amended :
    (∀ (p : RNNParams) (sv xv : List ℝ), sv.length ≠ p.dims →
      rnnStep p (.t1 sv) (.t1 xv)
        = .error (.typeError "Previous hidden-state vector must have size dims"))
    ∧ (∀ (p : RNNParams) (sv xv : List ℝ), sv.length = p.dims → xv.length ≠ p.dims →
      rnnStep p (.t1 sv) (.t1 xv)
        = .error (.typeError "Input vector must have size dims"))
    ∧ (∀ (p : AttnParams) (iv : List ℝ), iv.length ≠ p.dims →
      maskedSelfAttentionStep p (maskedSelfAttentionStart p) (.t1 iv)
        = .error .runtimeError)
    ∧ (∀ (p : AttnParams) (iv : List ℝ), iv.length ≠ p.dims →
      maskedSelfAttentionTempStep p (maskedSelfAttentionTempStart p) (.t1 iv)
        = .error .runtimeError) := by
  refine ⟨fun p sv xv h => ?_, fun p sv xv hs hx => ?_, fun p iv h => ?_, fun p iv h => ?_⟩
  · simp [rnnStep, sizeNeg, Tensor.shape, Tensor.ndim, bind, Except.bind, pure,
      Except.pure, throw, throwThe, MonadExceptOf.throw, h]
  · simp [rnnStep, sizeNeg, Tensor.shape, Tensor.ndim, bind, Except.bind, pure,
      Except.pure, throw, throwThe, MonadExceptOf.throw, hs, hx]
  · simp [maskedSelfAttentionStep, maskedSelfAttentionStart, catDim0, unsqueeze0,
      bind, Except.bind, pure, Except.pure, Ne.symm h]
  · simp [maskedSelfAttentionTempStep, maskedSelfAttentionTempStart, catDim0,
      unsqueeze0, bind, Except.bind, pure, Except.pure, Ne.symm h]

/-- Witness for the amended C4 at concrete parameters and vectors. -/
theorem C4_amended_witness :
    rnnStep ⟨2, .t1 [0, 0], .t2 2 [[1, 0], [0, 1]], .t2 2 [[1, 0], [0, 1]], .t1 [0, 0]⟩
        (.t1 [1]) (.t1 [1, 2])
      = .error (.typeError "Previous hidden-state vector must have size dims")
    ∧ rnnStep ⟨2, .t1 [0, 0], .t2 2 [[1, 0], [0, 1]], .t2 2 [[1, 0], [0, 1]], .t1 [0, 0]⟩
        (.t1 [1, 2]) (.t1 [1])
      = .error (.typeError "Input vector must have size dims")
    ∧ maskedSelfAttentionStep ⟨3, .t2 3 [], .t2 3 [], .t2 3 []⟩
        (maskedSelfAttentionStart ⟨3, .t2 3 [], .t2 3 [], .t2 3 []⟩) (.t1 [1])
      = .error .runtimeError
    ∧ maskedSelfAttentionTempStep ⟨3, .t2 3 [], .t2 3 [], .t2 3 []⟩
        (maskedSelfAttentionTempStart ⟨3, .t2 3 [], .t2 3 [], .t2 3 []⟩) (.t1 [1])
      = .error .runtimeError := by
  refine ⟨C4_amended.1 _ [1] [1, 2] (by decide), C4_amended.2.1 _ [1, 2] [1] rfl (by decide),
    C4_amended.2.2.1 _ [1] (by decide), C4_amended.2.2.2 _ [1] (by decide)⟩

/-! ### C5: Embedding.forward type validation -/

/-- Counterexample for C5 as stated: a Python float id makes the
`inp.dtype` attribute access raise an `AttributeError`, not the
`TypeError` the claim promises for every non-integral input. -/
theorem C5_counterexample :
    embeddingForward [[1]] (.pyFloat (1 / 2)) = .error .attributeError
    ∧ ∀ msg, embeddingForward [[1]] (.pyFloat (1 / 2)) ≠ .error (.typeError msg) := by
  constructor
  · rfl
  · intro msg h
    rw [show embeddingForward [[1]] (.pyFloat (1 / 2)) = .error .attributeError from rfl] at h
    exact absurd (Except.error.inj h) (by simp)

/-- Claim C5, amended: a tensor whose dtype is not integral raises the
descriptive `TypeError`, while a Python float (a non-int scalar without a
`.dtype` attribute) raises an `AttributeError` from the check itself. -/
theorem C5_amended :
    (∀ (W : List (List ℝ)) (dt : Dtype) (ids : List ℤ), dt ≠ .int32 → dt ≠ .int64 →
      embeddingForward W (.tensor dt ids)
        = .error (.typeError "input should be an integer or tensor of integers"))
    ∧ (∀ (W : List (List ℝ)) (x : ℝ),
      embeddingForward W (.pyFloat x) = .error .attributeError) := by
  refine ⟨fun W dt ids h32 h64 => ?_, fun W x => rfl⟩
  simp [embeddingForward, bind, Except.bind, pure, Except.pure, throw, throwThe,
    MonadExceptOf.throw, h32, h64]

/-- Witness for the amended C5 at a float32 tensor and a Python float. -/
theorem C5_amended_witness :
    embeddingForward [[1]] (.tensor .float32 [0])
      = .error (.typeError "input should be an integer or tensor of integers")
    ∧ embeddingForward [[1]] (.pyFloat 0)
      = .error .attributeError :=
  ⟨C5_amended.1 [[1]] .float32 [0] (by decide) (by decide), C5_amended.2 [[1]] 0⟩

/-! ### C10: negative ids wrap around -/

/-- Claim C10: `Embedding.forward` performs no range check on the id: an
integer id with `-vocab_size ≤ id < 0` does not raise but returns the
unit-normalized row of the table indexed from the end
(row `vocab_size + id`). -/
theorem C10_negative_id (W : List (List ℝ)) (id : ℤ)
    (h1 : -(W.length : ℤ) ≤ id) (h2 : id < 0) :
    embeddingForward W (.pyInt id)
      = .ok (.t1 (l2normalize (W.getD ((W.length : ℤ) + id).toNat []))) := by
  simp [embeddingForward, pyIndex, bind, Except.bind, pure, Except.pure,
    not_le.mpr h2, h1, h2]

/-- Witness for C10: id `-1` into a two-row table selects the normalized
last row. -/
theorem C10_negative_id_witness :
    embeddingForward [[3], [4]] (.pyInt (-1))
      = .ok (.t1 (l2normalize ([[(3 : ℝ)], [4]].getD ((2 : ℤ) + (-1)).toNat []))) :=
  C10_negative_id [[3], [4]] (-1) (by decide) (by decide)

/-! ### C2: hardAttention with gumbel=False -/

/-- Claim C2, evaluated at a failing input: with two queries, two keys and
value rows [10] and [20], `hardAttention(gumbel=False)` returns the single
vector [0] — the argmax indices (0 and 0) are used as multiplication
weights against the value rows instead of selecting a row, so the result
is not equal to any row of `vals` (and has the wrong shape: one vector
instead of one per query). -/
theorem C2_hard_argmax_eval :
    hardAttention id (.t2 1 [[1], [1]]) (.t2 1 [[1], [0]]) (.t2 1 [[10], [20]]) none false
      = .ok (.t1 [0])
    ∧ ∀ r ∈ [[(10 : ℝ)], [20]], [(0 : ℝ)] ≠ r := by
  have h1e : (1 : ℝ) ≤ Real.exp 1 := by linarith [Real.add_one_le_exp (1 : ℝ)]
  have hS : (0 : ℝ) < Real.exp 1 + 1 := by positivity
  have hnl : ¬ (Real.exp 1 / (Real.exp 1 + 1) < (Real.exp 1 + 1)⁻¹) := by
    rw [not_lt, inv_eq_one_div, div_le_div_iff₀ hS hS]
    nlinarith
  have hargrow : argmaxIdx [Real.exp 1 / (Real.exp 1 + 1), (Real.exp 1 + 1)⁻¹] = 0 := by
    simp only [argmaxIdx, argmaxAux, if_neg hnl]
  have hr1 : List.range 1 = [0] := rfl
  have hr2 : List.range 2 = [0, 1] := rfl
  constructor
  · simp [hardAttention, sizeNeg, Tensor.shape, Tensor.ndim, bind, Except.bind,
      pure, Except.pure, throw, throwThe, MonadExceptOf.throw, transposeLast2,
      matmul, tmap, softmaxLast, softmaxRow, expO, argmaxDim1, vecMat, dotList,
      hr1, hr2, Real.sqrt_one, Real.exp_zero, hargrow]
  · simp

/-! ### C1: batch forward agrees with the incremental start/step run -/

/-- `vecMat` produces one entry per declared column. -/
theorem vecMat_length (v : List ℝ) (rows : List (List ℝ)) (c : Nat) :
    (vecMat v rows c).length = c := by
  simp [vecMat]

/-- The common closed form of one masked self-attention output position:
the input `x` is projected to a query, the visible context `ctx` (the
inputs at positions up to and including this one) is projected to keys
and values, unmasked softmax attention combines the value rows, and the
residual adds `x`. -/
noncomputable def mOut (dims : Nat) (WQ WK WV : List (List ℝ))
    (ctx : List (List ℝ)) (x : List ℝ) : List ℝ :=
  List.zipWith (· + ·)
    (attnRowCore dims dims 1 (matVecL WQ x) (ctx.map (matVecL WK)) (ctx.map (matVecL WV))
      (List.replicate ctx.length false))
    x

/-- One incremental `step` call on state `pre` with input `x` succeeds,
grows the state by `x`, and outputs the closed form `mOut` over the grown
context. -/
theorem maskedStep_eval (dims : Nat) (WQ WK WV : List (List ℝ))
    (hWQ : WQ.length = dims) (hWK : WK.length = dims) (hWV : WV.length = dims)
    (pre : List (List ℝ)) (x : List ℝ) (hx : x.length = dims) :
    maskedSelfAttentionStep ⟨dims, .t2 dims WQ, .t2 dims WK, .t2 dims WV⟩
        (.t2 dims pre) (.t1 x)
      = .ok (.t2 dims (pre ++ [x]), .t1 (mOut dims WQ WK WV (pre ++ [x]) x)) := by
  have h1 : catDim0 (.t2 dims pre) (unsqueeze0 (.t1 x)) = .ok (.t2 dims (pre ++ [x])) := by
    simp [catDim0, unsqueeze0, hx]
  have h2 : (bmv (.t2 dims WQ) (.t1 x) : Except PyErr (Tensor ℝ))
      = .ok (.t1 (matVecL WQ x)) := bmv_t1 dims WQ x hx
  have h3 := bmv_t2 dims WK (pre ++ [x])
  have h4 := bmv_t2 dims WV (pre ++ [x])
  have h5 := attention_t1_none_eval WK.length WV.length (matVecL WQ x)
    ((pre ++ [x]).map (matVecL WK)) ((pre ++ [x]).map (matVecL WV)) 1
    (by rw [matVecL_length, hWQ, hWK])
    (by intro r hr; obtain ⟨y, _, rfl⟩ := List.mem_map.mp hr; exact matVecL_length WK y)
    (by simp)
  have h6 : (tadd (.t1 (attnRowCore WK.length WV.length 1 (matVecL WQ x)
      ((pre ++ [x]).map (matVecL WK)) ((pre ++ [x]).map (matVecL WV))
      (List.replicate ((pre ++ [x]).map (matVecL WK)).length false))) (.t1 x)
        : Except PyErr (Tensor ℝ))
      = .ok (.t1 (mOut dims WQ WK WV (pre ++ [x]) x)) := by
    unfold mOut
    rw [hWK, hWV]
    simp [tadd, attnRowCore, vecMat_length, hWV, hx]
  simp only [maskedSelfAttentionStep, bind, Except.bind, pure, Except.pure,
    h1, h2, h3, h4, h5, h6]

/-- The incremental run: feed the input vectors one at a time through
`step`, starting from the given state, collecting the emitted output
vectors. -/
noncomputable def stepOuts (p : AttnParams) : Tensor ℝ → List (List ℝ) →
    Except PyErr (List (List ℝ))
  | _, [] => .ok []
  | st, x :: xs => do
    let r ← maskedSelfAttentionStep p st (.t1 x)
    let rest ← stepOuts p r.1 xs
    match r.2 with
    | .t1 o => pure (o :: rest)
    | _ => throw .runtimeError

/-- The specification-level incremental run: the output at each position is
`mOut` over the context accumulated so far. -/
noncomputable def stepSpec (dims : Nat) (WQ WK WV : List (List ℝ))
    (pre : List (List ℝ)) : List (List ℝ) → List (List ℝ)
  | [] => []
  | x :: xs => mOut dims WQ WK WV (pre ++ [x]) x :: stepSpec dims WQ WK WV (pre ++ [x]) xs

/-- The incremental run from a well-formed state succeeds and computes
`stepSpec`. -/
theorem stepOuts_eval (dims : Nat) (WQ WK WV : List (List ℝ))
    (hWQ : WQ.length = dims) (hWK : WK.length = dims) (hWV : WV.length = dims)
    (pre X : List (List ℝ)) (hX : ∀ r ∈ X, r.length = dims) :
    stepOuts ⟨dims, .t2 dims WQ, .t2 dims WK, .t2 dims WV⟩ (.t2 dims pre) X
      = .ok (stepSpec dims WQ WK WV pre X) := by
  induction X generalizing pre with
  | nil => rfl
  | cons x xs ih =>
    have hx : x.length = dims := hX x (List.mem_cons_self x xs)
    rw [stepOuts, maskedStep_eval dims WQ WK WV hWQ hWK hWV pre x hx]
    rw [show (Except.ok (Tensor.t2 dims (pre ++ [x]),
        Tensor.t1 (mOut dims WQ WK WV (pre ++ [x]) x)) : Except PyErr (Tensor ℝ × Tensor ℝ))
      >>= (fun r => do
        let rest ← stepOuts ⟨dims, .t2 dims WQ, .t2 dims WK, .t2 dims WV⟩ r.1 xs
        match r.2 with
        | .t1 o => pure (o :: rest)
        | _ => throw .runtimeError)
      = (do
        let rest ← stepOuts ⟨dims, .t2 dims WQ, .t2 dims WK, .t2 dims WV⟩ (.t2 dims (pre ++ [x])) xs
        pure ((mOut dims WQ WK WV (pre ++ [x]) x) :: rest)) from rfl]
    rw [ih (pre ++ [x]) (fun r hr => hX r (List.mem_cons_of_mem x hr))]
    rfl

/-- `stepSpec` positions, indexed: position `i` sees the context
`pre ++ X.take (i+1)`. -/
theorem stepSpec_range (dims : Nat) (WQ WK WV : List (List ℝ))
    (pre X : List (List ℝ)) :
    stepSpec dims WQ WK WV pre X
      = (List.range X.length).map
          (fun i => mOut dims WQ WK WV (pre ++ X.take (i + 1)) (X.getD i [])) := by
  induction X generalizing pre with
  | nil => rfl
  | cons x xs ih =>
    rw [stepSpec, ih (pre ++ [x])]
    simp only [List.length_cons, List.range_succ_eq_map, List.map_cons, List.map_map]
    congr 1
    simp

/-- The heart of the batch/incremental agreement: one row of masked
attention whose mask row excludes exactly the positions after `i` equals
unmasked attention over the prefix of the first `i+1` keys and values
(`exp` of the `-inf` fill is 0, so the excluded positions drop out of
both the softmax normalizer and the weighted sum). -/
theorem attnRowCore_causal (d dv : Nat) (temp : ℝ) (q : List ℝ) (K V : List (List ℝ))
    (i : Nat) (hi : i < K.length) (hKV : K.length = V.length) :
    attnRowCore d dv temp q K V ((List.range K.length).map (fun j => decide (i < j)))
      = attnRowCore d dv temp q (K.take (i + 1)) (V.take (i + 1))
          (List.replicate (i + 1) false) := by
  have hls : (K.map (fun k => dotList q k)).map (fun l => l / Real.sqrt d)
      = (List.range K.length).map (fun j => dotList q (K.getD j []) / Real.sqrt d) := by
    conv_lhs => rw [← list_eq_range_getD K []]
    simp [List.map_map, Function.comp_def]
  have htake : K.take (i + 1) = (List.range (i + 1)).map (fun j => K.getD j []) := by
    conv_lhs => rw [← list_eq_range_getD K []]
    rw [← List.map_take, List.take_range, min_eq_left (by omega)]
  have hVtake : V.take (i + 1) = (List.range (i + 1)).map (fun j => V.getD j []) := by
    conv_lhs => rw [← list_eq_range_getD V []]
    rw [← List.map_take, List.take_range, min_eq_left (by omega)]
  have hAL : (List.zipWith (fun l b => if b then none else some l)
      ((K.map (fun k => dotList q k)).map (fun l => l / Real.sqrt d))
      ((List.range K.length).map (fun j => decide (i < j)))).map
        (Option.map (fun x => x / temp))
      = (List.range K.length).map (fun j => if i < j then none
          else some (dotList q (K.getD j []) / Real.sqrt d / temp)) := by
    rw [hls, zipWith_map_same, List.map_map]
    refine List.map_congr_left (fun j _ => ?_)
    by_cases h : i < j <;> simp [h]
  have hexpL : ((List.range K.length).map (fun j => if i < j then none
      else some (dotList q (K.getD j []) / Real.sqrt d / temp))).map expO
      = (List.range K.length).map (fun j => if i < j then 0
          else Real.exp (dotList q (K.getD j []) / Real.sqrt d / temp)) := by
    rw [List.map_map]
    refine List.map_congr_left (fun j _ => ?_)
    by_cases h : i < j <;> simp [h, expO]
  have hsum : ((List.range K.length).map (fun j => if i < j then 0
      else Real.exp (dotList q (K.getD j []) / Real.sqrt d / temp))).sum
      = ((List.range (i + 1)).map (fun j =>
          Real.exp (dotList q (K.getD j []) / Real.sqrt d / temp))).sum := by
    rw [range_sum_zero_tail _ i K.length hi (fun j hj => by simp [hj])]
    refine congrArg List.sum (List.map_congr_left (fun j hj => ?_))
    rw [List.mem_range] at hj
    rw [if_neg (by omega)]
  have hwL : softmaxRow ((List.zipWith (fun l b => if b then none else some l)
      ((K.map (fun k => dotList q k)).map (fun l => l / Real.sqrt d))
      ((List.range K.length).map (fun j => decide (i < j)))).map
        (Option.map (fun x => x / temp)))
      = (List.range K.length).map (fun j => (if i < j then 0
          else Real.exp (dotList q (K.getD j []) / Real.sqrt d / temp))
          / ((List.range (i + 1)).map (fun j =>
            Real.exp (dotList q (K.getD j []) / Real.sqrt d / temp))).sum) := by
    unfold softmaxRow
    rw [hAL, hexpL, hsum, List.map_map]
    refine List.map_congr_left (fun j _ => ?_)
    by_cases h : i < j <;> simp [h, expO]
  have hlsP : ((K.take (i + 1)).map (fun k => dotList q k)).map (fun l => l / Real.sqrt d)
      = (List.range (i + 1)).map (fun j => dotList q (K.getD j []) / Real.sqrt d) := by
    rw [htake]
    simp [List.map_map, Function.comp_def]
  have hwR : softmaxRow ((List.zipWith (fun l b => if b then none else some l)
      (((K.take (i + 1)).map (fun k => dotList q k)).map (fun l => l / Real.sqrt d))
      (List.replicate (i + 1) false)).map (Option.map (fun x => x / temp)))
      = (List.range (i + 1)).map (fun j =>
          Real.exp (dotList q (K.getD j []) / Real.sqrt d / temp)
          / ((List.range (i + 1)).map (fun j =>
            Real.exp (dotList q (K.getD j []) / Real.sqrt d / temp))).sum) := by
    rw [zipWith_fill_replicate_false _ (i + 1) (by simp [hlsP]; omega)]
    unfold softmaxRow
    rw [hlsP]
    simp [List.map_map, Function.comp_def, expO]
  unfold attnRowCore
  rw [hwL, hwR]
  unfold vecMat
  refine List.map_congr_left (fun c _ => ?_)
  have hV : V.map (fun r => r.getD c 0)
      = (List.range K.length).map (fun j => (V.getD j []).getD c 0) := by
    conv_lhs => rw [← list_eq_range_getD V []]
    rw [hKV]
    simp [List.map_map, Function.comp_def]
  have hVt : (V.take (i + 1)).map (fun r => r.getD c 0)
      = (List.range (i + 1)).map (fun j => (V.getD j []).getD c 0) := by
    rw [hVtake]
    simp [List.map_map, Function.comp_def]
  rw [hV, hVt, dotList_range, dotList_range]
  rw [range_sum_zero_tail _ i K.length hi
    (fun j hj => by simp [hj, zero_div])]
  refine congrArg List.sum (List.map_congr_left (fun j hj => ?_))
  rw [List.mem_range] at hj
  rw [if_neg (by omega)]

/-- Zipping a map over a range against a list of that length, pointwise
by index. -/
theorem zipWith_range_map (f : α → β → γ) (g : Nat → α) (l : List β) (d : β)
    (n : Nat) (h : l.length = n) :
    List.zipWith f ((List.range n).map g) l
      = (List.range n).map (fun i => f (g i) (l.getD i d)) := by
  induction l generalizing n g with
  | nil =>
    subst h
    rfl
  | cons x xs ih =>
    subst h
    simp only [List.length_cons, List.range_succ_eq_map, List.map_cons, List.map_map,
      List.zipWith_cons_cons, List.getD_cons_zero]
    congr 1
    rw [show (List.map (g ∘ Nat.succ) (List.range xs.length) : List α)
      = List.map (fun i => g (i + 1)) (List.range xs.length) from rfl]
    rw [ih (fun i => g (i + 1)) xs.length rfl]
    refine List.map_congr_left (fun i _ => ?_)
    simp

/-- Evaluation of batch-mode `forward`: row `i` of the output is the
attention row of query `i` against all keys with the strict causal mask
row, plus the residual. -/
theorem maskedForward_eval (dims : Nat) (WQ WK WV : List (List ℝ))
    (hWQ : WQ.length = dims) (hWK : WK.length = dims) (hWV : WV.length = dims)
    (X : List (List ℝ)) :
    maskedSelfAttentionForward ⟨dims, .t2 dims WQ, .t2 dims WK, .t2 dims WV⟩ (.t2 dims X)
      = .ok (.t2 dims ((List.range X.length).map
          (fun i => List.zipWith (· + ·)
            (attnRowCore dims dims 1 (matVecL WQ (X.getD i []))
              (X.map (matVecL WK)) (X.map (matVecL WV))
              ((List.range X.length).map (fun j => decide (i < j))))
            (X.getD i [])))) := by
  have h1 : bmv (.t2 dims WQ) (.t2 dims X) = .ok (.t2 dims (X.map (matVecL WQ))) := by
    rw [bmv_t2, hWQ]
  have h2 : bmv (.t2 dims WK) (.t2 dims X) = .ok (.t2 dims (X.map (matVecL WK))) := by
    rw [bmv_t2, hWK]
  have h3 : bmv (.t2 dims WV) (.t2 dims X) = .ok (.t2 dims (X.map (matVecL WV))) := by
    rw [bmv_t2, hWV]
  have hKr : ∀ r ∈ X.map (matVecL WK), r.length = dims := by
    intro r hr
    obtain ⟨y, _, rfl⟩ := List.mem_map.mp hr
    rw [matVecL_length, hWK]
  have h5 := attention_t2_masked_eval dims dims (X.map (matVecL WQ)) (X.map (matVecL WK))
    (X.map (matVecL WV))
    ((List.range X.length).map (fun i => (List.range X.length).map (fun j => decide (i < j))))
    1 hKr (by simp) (by simp)
  rw [List.length_map] at h5
  have hzlen : (List.zipWith
      (fun q m => attnRowCore dims dims 1 q (X.map (matVecL WK)) (X.map (matVecL WV)) m)
      (X.map (matVecL WQ))
      ((List.range X.length).map (fun i =>
        (List.range X.length).map (fun j => decide (i < j))))).length = X.length := by
    simp [List.length_zipWith]
  have h6 : tadd (.t2 dims (List.zipWith
      (fun q m => attnRowCore dims dims 1 q (X.map (matVecL WK)) (X.map (matVecL WV)) m)
      (X.map (matVecL WQ))
      ((List.range X.length).map (fun i =>
        (List.range X.length).map (fun j => decide (i < j)))))) (.t2 dims X)
      = .ok (.t2 dims (List.zipWith (List.zipWith (· + ·))
          (List.zipWith
            (fun q m => attnRowCore dims dims 1 q (X.map (matVecL WK)) (X.map (matVecL WV)) m)
            (X.map (matVecL WQ))
            ((List.range X.length).map (fun i =>
              (List.range X.length).map (fun j => decide (i < j)))))
          X)) := by
    simp [tadd, hzlen]
  simp only [maskedSelfAttentionForward, causalMask, sizeNeg, Tensor.shape, Tensor.ndim,
    bind, Except.bind, pure, Except.pure, throw, throwThe, MonadExceptOf.throw,
    List.length_cons, List.length_nil, h1, h2, h3, h5, h6]
  norm_num
  simp only [h5, h6]
  congr 2
  simp only [← List.getD_eq_getElem?_getD]
  have hQ : X.map (matVecL WQ)
      = (List.range X.length).map (fun i => matVecL WQ (X.getD i [])) := by
    conv_lhs => rw [← list_eq_range_getD X []]
    simp [List.map_map, Function.comp_def]
  rw [hQ, zipWith_map_same, zipWith_range_map _ _ X [] X.length rfl]

/-- Claim C1: for every well-formed input sequence, batch-mode `forward`
of the masked self-attention layer produces at each position exactly the
output vector that the incremental run (`start` followed by one `step`
per input) emits at that position. -/
theorem C1_forward_step_consistency (dims : Nat) (WQ WK WV : List (List ℝ))
    (hWQ : WQ.length = dims) (hWK : WK.length = dims) (hWV : WV.length = dims)
    (X : List (List ℝ)) (hX : ∀ r ∈ X, r.length = dims) :
    maskedSelfAttentionForward ⟨dims, .t2 dims WQ, .t2 dims WK, .t2 dims WV⟩ (.t2 dims X)
      = (stepOuts ⟨dims, .t2 dims WQ, .t2 dims WK, .t2 dims WV⟩
          (maskedSelfAttentionStart ⟨dims, .t2 dims WQ, .t2 dims WK, .t2 dims WV⟩) X).map
          (fun outs => Tensor.t2 dims outs) := by
  rw [maskedForward_eval dims WQ WK WV hWQ hWK hWV X]
  rw [show maskedSelfAttentionStart ⟨dims, .t2 dims WQ, .t2 dims WK, .t2 dims WV⟩
      = (.t2 dims [] : Tensor ℝ) from rfl]
  rw [stepOuts_eval dims WQ WK WV hWQ hWK hWV [] X hX]
  rw [show (Except.ok (stepSpec dims WQ WK WV [] X) : Except PyErr (List (List ℝ))).map
      (fun outs => Tensor.t2 dims outs)
      = Except.ok (.t2 dims (stepSpec dims WQ WK WV [] X)) from rfl]
  congr 2
  rw [stepSpec_range]
  refine List.map_congr_left (fun i hi => ?_)
  rw [List.mem_range] at hi
  simp only [List.nil_append]
  unfold mOut
  congr 1
  have hc := attnRowCore_causal dims dims 1 (matVecL WQ (X.getD i []))
    (X.map (matVecL WK)) (X.map (matVecL WV)) i (by simpa using hi) (by simp)
  rw [List.length_map] at hc
  rw [hc]
  rw [List.length_take, min_eq_left (by omega)]
  rw [← List.map_take, ← List.map_take]

/-- Witness for C1: a two-step sequence at `dims = 1` with concrete
parameters. -/
theorem C1_forward_step_consistency_witness :
    maskedSelfAttentionForward ⟨1, .t2 1 [[1]], .t2 1 [[1]], .t2 1 [[1]]⟩ (.t2 1 [[1], [2]])
      = (stepOuts ⟨1, .t2 1 [[1]], .t2 1 [[1]], .t2 1 [[1]]⟩
          (maskedSelfAttentionStart ⟨1, .t2 1 [[1]], .t2 1 [[1]], .t2 1 [[1]]⟩) [[1], [2]]).map
          (fun outs => Tensor.t2 1 outs) :=
  C1_forward_step_consistency 1 [[1]] [[1]] [[1]] rfl rfl rfl [[1], [2]] (by simp)

end NN
